import Mathlib

/-
Verification of the opal-bot core against its specification.

The development shallowly embeds the HTTP path router (libweb), the
Named-Future Registry (IVars) and Spool synchronization primitives, and
the OpalBot orchestrator logic (settings web route, intent dispatch,
calendar/settings gathering) as executable Lean definitions, and proves
the specified properties about them.
-/

namespace OpalBot

/-! ## Path router (libweb) -/

/-- Characters treated as special by the router's escapeRegExp helper:
the set matched by its replacement regex. The two brace characters are
written via their character codes. -/
def regexSpecials : List Char :=
  ".*+?^$()|[]\\".data ++ [Char.ofNat 123, Char.ofNat 125]

/-- Test for membership in the escaped-character set. -/
def isRegexSpecial (c : Char) : Bool := regexSpecials.contains c

/-- Embedding of escapeRegExp: prefix every special character with a
backslash, leaving other characters unchanged. -/
def escapeRegExp (s : String) : String :=
  String.mk (s.data.foldr
    (fun c acc => if isRegexSpecial c then '\\' :: c :: acc else c :: acc) [])

/-- JavaScript word characters, the class written as a backslash-w atom:
ASCII letters, digits, and underscore. -/
def isWordChar (c : Char) : Bool :=
  ('a' ≤ c && c ≤ 'z') || ('A' ≤ c && c ≤ 'Z') || ('0' ≤ c && c ≤ '9') || c = '_'

/-- Embedding of the template split performed in the Route constructor:
splitting the pattern on colon-name placeholders with a capturing group
produces the alternating list of literal parts and captured names, the
way the JavaScript split with a capture group does. The accumulator holds
the current part in reverse; the flag records whether we are inside a
placeholder name. -/
def splitRun : List Char → List Char → Bool → List (List Char)
  | [], acc, false => [acc.reverse]
  | [], acc, true => [acc.reverse, []]
  | [c], acc, false => [(c :: acc).reverse]
  | [c], acc, true =>
    if isWordChar c then [(c :: acc).reverse, []] else [acc.reverse, [c]]
  | c :: c2 :: rest2, acc, false =>
    if c = ':' ∧ isWordChar c2 then
      acc.reverse :: splitRun rest2 [c2] true
    else
      splitRun (c2 :: rest2) (c :: acc) false
  | c :: c2 :: rest2, acc, true =>
    if isWordChar c then
      splitRun (c2 :: rest2) (c :: acc) true
    else if c = ':' ∧ isWordChar c2 then
      acc.reverse :: [] :: splitRun rest2 [c2] true
    else
      acc.reverse :: splitRun (c2 :: rest2) [c] false

/-- Split a route template into its alternating literal and placeholder
parts. -/
def splitTemplate (pattern : String) : List String :=
  (splitRun pattern.data [] false).map String.mk

/-- One atom of a compiled route pattern: an escaped literal segment or
a non-slash capture group standing for a named placeholder. -/
inductive Piece where
  | lit (s : String)
  | capture (name : String)
  deriving DecidableEq

/-- Embedding of the constructor loop over split parts: the alternation
flag starts false; placeholder parts contribute their name and a
non-slash capture group, literal parts contribute their escaped text.
Returns the placeholder names in order, the regex body text, and the
structural pieces of the pattern. -/
def routeLoop : List String → Bool → List String × String × List Piece
  | [], _ => ([], ("" : String), [])
  | part :: rest, isParam =>
    let r := routeLoop rest (!isParam)
    if isParam then
      (part :: r.1, ("([^/]*)" : String) ++ r.2.1, Piece.capture part :: r.2.2)
    else
      (r.1, escapeRegExp part ++ r.2.1, Piece.lit part :: r.2.2)

/-- Uppercasing of a string, as the JavaScript toUpperCase does on the
ASCII strings the router handles. -/
def toUpperCase (s : String) : String :=
  String.mk (s.data.map Char.toUpper)

/-- Embedding of the compiled Route: the method string exactly as stored
by the constructor, the pattern field exactly as stored (the source
uppercases it), the placeholder names in order, the anchored regex text,
the structural pieces giving that regex its meaning, and the handler. -/
structure Route (α : Type) where
  method : String
  pattern : String
  paramNames : List String
  regexStr : String
  pieces : List Piece
  handler : α

/-- Embedding of the Route constructor: split the template, run the
compilation loop, anchor the pattern start-to-end, store the method as
given and the pattern uppercased, exactly as the source does. -/
def Route.make {α : Type} (method : String) (pattern : String) (handler : α) :
    Route α :=
  let r := routeLoop (splitTemplate pattern) false
  { method := method,
    pattern := toUpperCase pattern,
    paramNames := r.1,
    regexStr := ("^" : String) ++ r.2.1 ++ "$",
    pieces := r.2.2,
    handler := handler }

/-- Anchored matching of a piece list against a character list with the
leftmost-greedy backtracking semantics of the compiled regex: a literal
piece must occur verbatim, a capture piece takes the longest non-slash
run that lets the rest of the pattern match. The fuel argument bounds the
recursion depth; one unit is spent per piece, so a fuel of the piece-list
length always suffices. Returns the captured substrings in group order. -/
def execAux : Nat → List Piece → List Char → Option (List (List Char))
  | _, [], cs => if cs.isEmpty then some [] else none
  | 0, _ :: _, _ => none
  | d + 1, Piece.lit s :: ps, cs =>
    if List.isPrefixOf s.data cs then execAux d ps (cs.drop s.data.length)
    else none
  | d + 1, Piece.capture _ :: ps, cs =>
    let m := (cs.takeWhile fun c => c != '/').length
    ((List.range (m + 1)).reverse).findSome? fun k =>
      match execAux d ps (cs.drop k) with
      | some caps => some (cs.take k :: caps)
      | none => none

/-- Run the compiled pattern against a full string, anchored at both
ends. -/
def execPieces (ps : List Piece) (cs : List Char) : Option (List (List Char)) :=
  execAux ps.length ps cs

/-- An incoming HTTP request as the router sees it: the method and URL
fields may be absent, and the source treats an empty string the same as
an absent one (falsiness). -/
structure Request where
  method : Option String
  url : Option String

/-- Embedding of Route match: when the request has a truthy method whose
uppercasing equals the stored method and a truthy URL matched by the
compiled pattern, pack the capture groups into the name-to-value mapping
by position; otherwise report no match. -/
def Route.matchReq {α : Type} (r : Route α) (req : Request) :
    Option (List (String × String)) :=
  match req.method, req.url with
  | some m, some u =>
    if m ≠ ("") ∧ toUpperCase m = r.method ∧ u ≠ ("") then
      match execPieces r.pieces u.data with
      | some caps => some (r.paramNames.zip (caps.map String.mk))
      | none => none
    else none
  | _, _ => none

/-- An HTTP response distilled to what the handlers set: status code and
body text. A fresh response carries the server default status 200 and an
empty body. -/
structure Response where
  statusCode : Nat
  body : String
  deriving DecidableEq

/-- A fresh response before any handler touched it. -/
def initialResponse : Response := { statusCode := 200, body := ("") }

/-- The type of a route handler at the response level: it receives the
request, the response so far, and the captured parameters, and yields the
final response. -/
abbrev HandlerFn := Request → Response → List (String × String) → Response

/-- Embedding of the router's default not-found handler: set status 404
and end the response with the fixed body. -/
def notFoundHandler (req : Request) (res : Response) : Response :=
  { res with statusCode := 404, body := ("not found") }

/-- Embedding of dispatch: try the routes in order, invoke the first
matching route's handler with its captured parameters, and fall back to
the not-found handler when no route matches. -/
def dispatch (routes : List (Route HandlerFn))
    (notFound : Request → Response → Response) (req : Request)
    (res : Response) : Response :=
  match routes with
  | [] => notFound req res
  | r :: rest =>
    match r.matchReq req with
    | some ps => r.handler req res ps
    | none => dispatch rest notFound req res

/-! ## Named-Future Registry (IVars) -/

/-- Modelled from the spec: the state of one Named-Future Registry slot.
The registry implementation (the IVars class of the utility module) is
not among the sources; the spec's data model gives its states as
unregistered, awaiting-value, has-value, and consumed. -/
inductive Slot (V : Type) where
  | unregistered
  | awaiting
  | hasValue (v : V)
  | consumed
  deriving DecidableEq

/-- The whole registry: a slot for every token string. -/
abbrev IVarsState (V : Type) := String → Slot V

/-- Update the slot of one token, leaving every other token alone. -/
def setSlot {V : Type} (s : IVarsState V) (t : String) (x : Slot V) :
    IVarsState V :=
  fun u => if u = t then x else s u

/-- The registry in which no token was ever touched. -/
def emptyFutures (V : Type) : IVarsState V :=
  fun _ => Slot.unregistered

/-- Modelled from the spec: put resumes a suspended consumer with the
value and marks the slot consumed, and otherwise stores the value,
marking the slot has-value for a future get. The second component is the
value handed to a resumed consumer by this call, if any. -/
def IVars.put {V : Type} (s : IVarsState V) (t : String) (v : V) :
    IVarsState V × Option V :=
  match s t with
  | Slot.awaiting => (setSlot s t Slot.consumed, some v)
  | _ => (setSlot s t (Slot.hasValue v), none)

/-- Modelled from the spec: get resumes immediately with a stored value,
marking the slot consumed, and otherwise registers the token and
suspends awaiting a value. The second component is the value received
immediately, if any. -/
def IVars.get {V : Type} (s : IVarsState V) (t : String) :
    IVarsState V × Option V :=
  match s t with
  | Slot.hasValue v => (setSlot s t Slot.consumed, some v)
  | _ => (setSlot s t Slot.awaiting, none)

/-- Modelled from the spec: has is the pure existence check of a
registered slot, used to reject web requests for tokens that were never
issued. -/
def IVars.has {V : Type} (s : IVarsState V) (t : String) : Bool :=
  match s t with
  | Slot.unregistered => false
  | _ => true

/-- One registry call in a trace: a producer put or a consumer get. -/
inductive FutureOp (V : Type) where
  | put (t : String) (v : V)
  | get (t : String)
  deriving DecidableEq

/-- Run one registry call and report the delivery it causes, if any: a
put that resumes a suspended consumer delivers its value, and a get that
finds a stored value receives it immediately. -/
def stepOp {V : Type} (s : IVarsState V) : FutureOp V →
    IVarsState V × Option (String × V)
  | FutureOp.put t v =>
    let r := IVars.put s t v
    (r.1, r.2.map fun w => (t, w))
  | FutureOp.get t =>
    let r := IVars.get s t
    (r.1, r.2.map fun w => (t, w))

/-- Run a sequence of registry calls, collecting the deliveries to
consumers in order. -/
def runOps {V : Type} : IVarsState V → List (FutureOp V) →
    IVarsState V × List (String × V)
  | s, [] => (s, [])
  | s, op :: rest =>
    let r := stepOp s op
    let rr := runOps r.1 rest
    (rr.1, match r.2 with
           | some d => d :: rr.2
           | none => rr.2)

/-- Number of put calls for a given token in a trace. -/
def putsOn {V : Type} (t : String) (ops : List (FutureOp V)) : Nat :=
  ops.countP fun op =>
    match op with
    | FutureOp.put u _ => decide (u = t)
    | FutureOp.get _ => false

/-- Number of deliveries to consumers of a given token. -/
def deliveredTo {V : Type} (t : String) (dl : List (String × V)) : Nat :=
  dl.countP fun d => decide (d.1 = t)

/-- One when a slot stores an unclaimed value, zero otherwise. -/
def slotBit {V : Type} : Slot V → Nat
  | Slot.hasValue _ => 1
  | _ => 0

/-- One when the slot of the token currently stores an unclaimed value,
zero otherwise. -/
def storedBit {V : Type} (s : IVarsState V) (t : String) : Nat :=
  slotBit (s t)

/-! ## Spool -/

/-- Modelled from the spec: the Spool's per-key waiter registry. The
Spool implementation (the basebot module) is not among the sources; the
spec states that at most one waiter may be registered per key, so the
state records, for each key, whether a waiter is suspended on it. -/
abbrev SpoolState (K : Type) := K → Bool

/-- Modelled from the spec: wait registers the unique waiter for the key
and suspends until a value for the key arrives. -/
def Spool.wait {K : Type} [DecidableEq K] (s : SpoolState K) (k : K) :
    SpoolState K :=
  fun u => if u = k then true else s u

/-- Remove the waiter for one key. -/
def Spool.clear {K : Type} [DecidableEq K] (s : SpoolState K) (k : K) :
    SpoolState K :=
  fun u => if u = k then false else s u

/-- Modelled from the spec: dispatch hands the value directly to the
waiter for the key when one is suspended, removing it and reporting
handled, and otherwise reports unhandled, discarding the value and
leaving the state untouched. The last component is the value handed to
the resumed waiter, if any. -/
def Spool.dispatch {K V : Type} [DecidableEq K] (s : SpoolState K) (k : K)
    (v : V) : SpoolState K × Bool × Option V :=
  if s k then (Spool.clear s k, true, some v)
  else (s, false, none)

/-! ## OpalBot data model and settings web route -/

/-- Which calendar service a user configured. -/
inductive ServiceKind where
  | caldav
  | office
  deriving DecidableEq

/-- The CalDAV credentials a user submits through the settings form. The
source reads the form fields without checking their presence, so each is
optional here. -/
structure CaldavConfig where
  url : Option String
  username : Option String
  password : Option String
  deriving DecidableEq

/-- The user settings record stored in the database. -/
structure Settings where
  service : Option ServiceKind
  caldav : Option CaldavConfig
  officeToken : Option String
  deriving DecidableEq

/-- The settings of a freshly created user. -/
def emptySettings : Settings :=
  { service := none, caldav := none, officeToken := none }

/-- A settings web request as the route handler sees it: the HTTP
method, the captured token parameter, the parsed form data, and whether
an Office client is configured on the bot. -/
structure SettingsReq where
  method : String
  token : String
  form : String → Option String
  hasOfficeClient : Bool

/-- Observable side effects of the settings route handler beyond its
response: rendering the settings form, starting the Office
authentication flow, and resolving a registry token with settings. -/
inductive WebEffect (V : Type) where
  | renderedForm
  | officeAuthStarted
  | putToken (t : String) (v : V)

/-- What one settings-route request produces: the response, the registry
state afterwards, and the other observable effects. -/
structure HandlerOutcome (V : Type) where
  response : Response
  state : IVarsState V
  effects : List (WebEffect V)

/-- The settings record the handler builds from a CalDAV form
submission. -/
def caldavSettingsOf (form : String → Option String) : Settings :=
  { service := some ServiceKind.caldav,
    caldav := some { url := form ("url"), username := form ("username"),
                     password := form ("password") },
    officeToken := none }

/-- Embedding of the settings route handler: reject unknown tokens with
status 404 and the fixed body, render the form on GET (starting the
Office authentication flow first when a client is configured), accept a
POST whose service field is caldav by resolving the token with the
submitted settings, answer any other POST with the fixed apology, and
treat other methods as not found. -/
def settingsRoute (s : IVarsState Settings) (req : SettingsReq) :
    HandlerOutcome Settings :=
  if IVars.has s req.token = false then
    { response := { statusCode := 404, body := ("invalid token") },
      state := s, effects := [] }
  else if req.method = ("GET") then
    { response := { statusCode := 200, body := ("settings form") },
      state := s,
      effects := (if req.hasOfficeClient then [WebEffect.officeAuthStarted]
                  else []) ++ [WebEffect.renderedForm] }
  else if req.method = ("POST") then
    if req.form ("service") = some ("caldav") then
      { response := { statusCode := 200, body := ("got it; thanks!") },
        state := (IVars.put s req.token (caldavSettingsOf req.form)).1,
        effects := [WebEffect.putToken req.token (caldavSettingsOf req.form)] }
    else
      { response := { statusCode := 200,
                      body := ("sorry; I did not understand the form") },
        state := s, effects := [] }
  else
    { response := { statusCode := 404, body := ("not found") },
      state := s, effects := [] }

/-! ## Intent dispatch -/

/-- The result the NLP collaborator returns for one message, as the
orchestrator consumes it: entity presence by name and the string value
of a named entity. -/
structure WitResult where
  hasEntity : String → Bool
  entityValue : String → Option String

/-- The fixed set of conversation handlers the orchestrator dispatches
into, named after the source methods. -/
inductive IntentHandler where
  | handle_greeting
  | handle_bye
  | handle_thanks
  | handle_show_calendar
  | handle_schedule_meeting
  | handle_setup_calendar
  | handle_help
  | handle_default
  deriving DecidableEq

/-- Embedding of interact's dispatch: the greetings, bye, and thanks
entities take priority in that order; otherwise the intent entity value
selects among the fixed handlers, with everything else falling to the
default handler. -/
def interact (res : WitResult) : IntentHandler :=
  if res.hasEntity ("greetings") then IntentHandler.handle_greeting
  else if res.hasEntity ("bye") then IntentHandler.handle_bye
  else if res.hasEntity ("thanks") then IntentHandler.handle_thanks
  else if res.entityValue ("intent") = some ("show_calendar") then
    IntentHandler.handle_show_calendar
  else if res.entityValue ("intent") = some ("schedule_meeting") then
    IntentHandler.handle_schedule_meeting
  else if res.entityValue ("intent") = some ("setup_calendar") then
    IntentHandler.handle_setup_calendar
  else if res.entityValue ("intent") = some ("help") then
    IntentHandler.handle_help
  else IntentHandler.handle_default

/-! ## Calendar and settings gathering -/

/-- A user record stored in the users collection. -/
structure User where
  slack_id : String
  settings : Settings
  deriving DecidableEq

/-- Observable side effects of looking up a calendar: creating a user
record, sending the settings URL for a minted token, awaiting the
Named-Future Registry on that token, updating the stored user record,
and saving the database. -/
inductive CalEffect where
  | insertedUser
  | sentSettingsURL (token : String)
  | registryGet (token : String)
  | updatedUser
  | savedDatabase
  deriving DecidableEq

/-- Embedding of getUser: return the stored record when one exists, and
otherwise create a record with empty settings, insert it, and save the
database. -/
def getUser (stored : Option User) (slack_id : String) :
    User × List CalEffect :=
  match stored with
  | some u => (u, [])
  | none => ({ slack_id := slack_id, settings := emptySettings },
             [CalEffect.insertedUser, CalEffect.savedDatabase])

/-- Embedding of gatherSettings: send the user the settings URL carrying
the minted token and await the Named-Future Registry on that token; the
resolved settings are the suspension's eventual result. -/
def gatherSettings (token : String) (resolved : Settings) :
    Settings × List CalEffect :=
  (resolved, [CalEffect.sentSettingsURL token, CalEffect.registryGet token])

/-- The calendar accessor constructed from a settings record. -/
inductive CalendarKind where
  | caldavCal (cfg : Option CaldavConfig)
  | officeCal (token : Option String)
  deriving DecidableEq

/-- Build a calendar accessor from the configured service, if any. -/
def calendarFor (s : Settings) : Option CalendarKind :=
  match s.service with
  | some ServiceKind.caldav => some (CalendarKind.caldavCal s.caldav)
  | some ServiceKind.office => some (CalendarKind.officeCal s.officeToken)
  | none => none

/-- Embedding of getCalendar: look up or create the user, gather
settings when forced or when no service is configured yet, store and
save gathered settings, and construct the calendar for the configured
service. The token and resolved settings stand for the minted random
token and the value the registry suspension resolves to. -/
def getCalendar (stored : Option User) (slack_id : String) (force : Bool)
    (token : String) (resolved : Settings) :
    User × List CalEffect × Option CalendarKind :=
  let u := getUser stored slack_id
  if force = true ∨ u.1.settings.service = none then
    let g := gatherSettings token resolved
    let u1 : User := { u.1 with settings := g.1 }
    (u1,
     u.2 ++ g.2 ++ [CalEffect.updatedUser, CalEffect.savedDatabase],
     calendarFor u1.settings)
  else
    (u.1, u.2, calendarFor u.1.settings)

/-! ## Helper lemmas -/

/-- Writing a slot twice keeps only the second write. -/
theorem setSlot_setSlot {V : Type} (s : IVarsState V) (t : String)
    (a b : Slot V) : setSlot (setSlot s t a) t b = setSlot s t b := by
  funext u
  by_cases hu : u = t <;> simp [setSlot, hu]

/-- Reading the slot just written. -/
theorem setSlot_same {V : Type} (s : IVarsState V) (t : String)
    (x : Slot V) : setSlot s t x t = x := by
  simp [setSlot]

/-- How a slot write changes the stored-value indicator of a token. -/
theorem storedBit_setSlot {V : Type} (s : IVarsState V) (u t : String)
    (x : Slot V) :
    storedBit (setSlot s u x) t = if t = u then slotBit x else storedBit s t := by
  by_cases h : t = u <;> simp [storedBit, setSlot, h]

/-- A step that causes a delivery prepends it to the deliveries of the
remaining trace. -/
theorem runOps_cons_some {V : Type} {s s' : IVarsState V} {op : FutureOp V}
    {d : String × V} (h : stepOp s op = (s', some d))
    (rest : List (FutureOp V)) :
    (runOps s (op :: rest)).2 = d :: (runOps s' rest).2 ∧
    (runOps s (op :: rest)).1 = (runOps s' rest).1 := by
  simp [runOps, h]

/-- A step that causes no delivery leaves the deliveries of the
remaining trace unchanged. -/
theorem runOps_cons_none {V : Type} {s s' : IVarsState V} {op : FutureOp V}
    (h : stepOp s op = (s', none)) (rest : List (FutureOp V)) :
    (runOps s (op :: rest)).2 = (runOps s' rest).2 ∧
    (runOps s (op :: rest)).1 = (runOps s' rest).1 := by
  simp [runOps, h]

/-- Two members of a list of at most one element coincide. -/
theorem mem_eq_of_len_le_one {α : Type} {l : List α} (h : l.length ≤ 1)
    {a b : α} (ha : a ∈ l) (hb : b ∈ l) : a = b := by
  cases l with
  | nil => cases ha
  | cons x xs =>
    cases xs with
    | nil =>
      rw [List.mem_singleton] at ha hb
      rw [ha, hb]
    | cons y ys =>
      simp [List.length_cons] at h

/-- Core accounting invariant of the registry: the deliveries a trace
causes for one token are bounded by the put calls it contains for that
token plus the value already stored for it. -/
theorem deliveredTo_le {V : Type} (t : String) :
    ∀ (ops : List (FutureOp V)) (s : IVarsState V),
      deliveredTo t (runOps s ops).2 ≤ putsOn t ops + storedBit s t := by
  intro ops
  induction ops with
  | nil =>
    intro s
    simp [runOps, deliveredTo, putsOn]
  | cons op rest ih =>
    intro s
    cases op with
    | put u v =>
      have hP : putsOn t (FutureOp.put u v :: rest) =
          putsOn t rest + (if u = t then 1 else 0) := by
        simp [putsOn, List.countP_cons]
      cases hsu : s u with
      | awaiting =>
        have hstep : stepOp s (FutureOp.put u v) =
            (setSlot s u Slot.consumed, some (u, v)) := by
          simp [stepOp, IVars.put, hsu]
        have hA := runOps_cons_some hstep rest
        rw [hA.1]
        have hI := ih (setSlot s u Slot.consumed)
        rw [storedBit_setSlot] at hI
        have hD : deliveredTo t ((u, v) ::
            (runOps (setSlot s u Slot.consumed) rest).2) =
            deliveredTo t (runOps (setSlot s u Slot.consumed) rest).2 +
              (if u = t then 1 else 0) := by
          simp [deliveredTo, List.countP_cons]
        rw [hD, hP]
        by_cases htu : t = u
        · subst htu
          have hz : storedBit s t = 0 := by simp [storedBit, hsu, slotBit]
          simp [slotBit] at hI ⊢
          omega
        · have hut : ¬ u = t := fun e => htu e.symm
          simp [htu, hut] at hI ⊢
          omega
      | unregistered =>
        have hstep : stepOp s (FutureOp.put u v) =
            (setSlot s u (Slot.hasValue v), none) := by
          simp [stepOp, IVars.put, hsu]
        have hA := runOps_cons_none hstep rest
        rw [hA.1, hP]
        have hI := ih (setSlot s u (Slot.hasValue v))
        rw [storedBit_setSlot] at hI
        by_cases htu : t = u
        · subst htu
          simp [slotBit] at hI ⊢
          omega
        · have hut : ¬ u = t := fun e => htu e.symm
          simp [htu, hut] at hI ⊢
          omega
      | hasValue w =>
        have hstep : stepOp s (FutureOp.put u v) =
            (setSlot s u (Slot.hasValue v), none) := by
          simp [stepOp, IVars.put, hsu]
        have hA := runOps_cons_none hstep rest
        rw [hA.1, hP]
        have hI := ih (setSlot s u (Slot.hasValue v))
        rw [storedBit_setSlot] at hI
        by_cases htu : t = u
        · subst htu
          have ho : storedBit s t = 1 := by simp [storedBit, hsu, slotBit]
          simp [slotBit] at hI ⊢
          omega
        · have hut : ¬ u = t := fun e => htu e.symm
          simp [htu, hut] at hI ⊢
          omega
      | consumed =>
        have hstep : stepOp s (FutureOp.put u v) =
            (setSlot s u (Slot.hasValue v), none) := by
          simp [stepOp, IVars.put, hsu]
        have hA := runOps_cons_none hstep rest
        rw [hA.1, hP]
        have hI := ih (setSlot s u (Slot.hasValue v))
        rw [storedBit_setSlot] at hI
        by_cases htu : t = u
        · subst htu
          simp [slotBit] at hI ⊢
          omega
        · have hut : ¬ u = t := fun e => htu e.symm
          simp [htu, hut] at hI ⊢
          omega
    | get u =>
      have hP : putsOn t (FutureOp.get u :: rest) = putsOn t rest := by
        simp [putsOn, List.countP_cons]
      cases hsu : s u with
      | hasValue w =>
        have hstep : stepOp s (FutureOp.get u) =
            (setSlot s u Slot.consumed, some (u, w)) := by
          simp [stepOp, IVars.get, hsu]
        have hA := runOps_cons_some hstep rest
        rw [hA.1]
        have hI := ih (setSlot s u Slot.consumed)
        rw [storedBit_setSlot] at hI
        have hD : deliveredTo t ((u, w) ::
            (runOps (setSlot s u Slot.consumed) rest).2) =
            deliveredTo t (runOps (setSlot s u Slot.consumed) rest).2 +
              (if u = t then 1 else 0) := by
          simp [deliveredTo, List.countP_cons]
        rw [hD, hP]
        by_cases htu : t = u
        · subst htu
          have ho : storedBit s t = 1 := by simp [storedBit, hsu, slotBit]
          simp [slotBit] at hI ⊢
          omega
        · have hut : ¬ u = t := fun e => htu e.symm
          simp [htu, hut] at hI ⊢
          omega
      | unregistered =>
        have hstep : stepOp s (FutureOp.get u) =
            (setSlot s u Slot.awaiting, none) := by
          simp [stepOp, IVars.get, hsu]
        have hA := runOps_cons_none hstep rest
        rw [hA.1, hP]
        have hI := ih (setSlot s u Slot.awaiting)
        rw [storedBit_setSlot] at hI
        by_cases htu : t = u
        · subst htu
          simp [slotBit] at hI ⊢
          omega
        · have hut : ¬ u = t := fun e => htu e.symm
          simp [htu, hut] at hI ⊢
          omega
      | awaiting =>
        have hstep : stepOp s (FutureOp.get u) =
            (setSlot s u Slot.awaiting, none) := by
          simp [stepOp, IVars.get, hsu]
        have hA := runOps_cons_none hstep rest
        rw [hA.1, hP]
        have hI := ih (setSlot s u Slot.awaiting)
        rw [storedBit_setSlot] at hI
        by_cases htu : t = u
        · subst htu
          simp [slotBit] at hI ⊢
          omega
        · have hut : ¬ u = t := fun e => htu e.symm
          simp [htu, hut] at hI ⊢
          omega
      | consumed =>
        have hstep : stepOp s (FutureOp.get u) =
            (setSlot s u Slot.awaiting, none) := by
          simp [stepOp, IVars.get, hsu]
        have hA := runOps_cons_none hstep rest
        rw [hA.1, hP]
        have hI := ih (setSlot s u Slot.awaiting)
        rw [storedBit_setSlot] at hI
        by_cases htu : t = u
        · subst htu
          simp [slotBit] at hI ⊢
          omega
        · have hut : ¬ u = t := fun e => htu e.symm
          simp [htu, hut] at hI ⊢
          omega

/-! ## Claim theorems: Named-Future Registry -/

/-- C1: for every token and value, starting from a state in which the
token is unregistered, running put then get and running get then put
produce identical final states and deliveries; in either order exactly
the put value is delivered to the consumer and the slot ends consumed. -/
theorem named_future_order_independent {V : Type} (s : IVarsState V)
    (t : String) (v : V) (h : s t = Slot.unregistered) :
    runOps s [FutureOp.put t v, FutureOp.get t] =
      runOps s [FutureOp.get t, FutureOp.put t v] ∧
    (runOps s [FutureOp.put t v, FutureOp.get t]).2 = [(t, v)] ∧
    (runOps s [FutureOp.put t v, FutureOp.get t]).1 t = Slot.consumed := by
  have e1 : runOps s [FutureOp.put t v, FutureOp.get t] =
      (setSlot s t Slot.consumed, [(t, v)]) := by
    simp [runOps, stepOp, IVars.put, IVars.get, h, setSlot_same,
      setSlot_setSlot]
  have e2 : runOps s [FutureOp.get t, FutureOp.put t v] =
      (setSlot s t Slot.consumed, [(t, v)]) := by
    simp [runOps, stepOp, IVars.put, IVars.get, h, setSlot_same,
      setSlot_setSlot]
  refine ⟨e1.trans e2.symm, ?_, ?_⟩
  · rw [e1]
  · rw [e1]
    exact setSlot_same s t Slot.consumed

/-- Witness for C1 at a concrete token, value, and the empty registry. -/
theorem named_future_order_independent_witness :
    emptyFutures Nat ("t") = Slot.unregistered ∧
    runOps (emptyFutures Nat) [FutureOp.put ("t") 3, FutureOp.get ("t")] =
      runOps (emptyFutures Nat) [FutureOp.get ("t"), FutureOp.put ("t") 3] ∧
    (runOps (emptyFutures Nat)
        [FutureOp.put ("t") 3, FutureOp.get ("t")]).2 = [(("t" : String), 3)] :=
  ⟨rfl,
   (named_future_order_independent (emptyFutures Nat) ("t") 3 rfl).1,
   (named_future_order_independent (emptyFutures Nat) ("t") 3 rfl).2.1⟩

/-- C2: in every trace that uses a token at most once on the producer
side, starting from the empty registry, at most one delivery happens for
that token, and no two deliveries for it can carry different values. -/
theorem named_future_single_assignment {V : Type} (ops : List (FutureOp V))
    (t : String) (h : putsOn t ops ≤ 1) :
    deliveredTo t (runOps (emptyFutures V) ops).2 ≤ 1 ∧
    ∀ v w, (t, v) ∈ (runOps (emptyFutures V) ops).2 →
      (t, w) ∈ (runOps (emptyFutures V) ops).2 → v = w := by
  have hle := deliveredTo_le t ops (emptyFutures V)
  have hsb : storedBit (emptyFutures V) t = 0 := rfl
  have hone : deliveredTo t (runOps (emptyFutures V) ops).2 ≤ 1 := by omega
  refine ⟨hone, ?_⟩
  intro v w hv hw
  have hfl : ((runOps (emptyFutures V) ops).2.filter
      (fun d => decide (d.1 = t))).length ≤ 1 := by
    rw [← List.countP_eq_length_filter]
    exact hone
  have hv' : (t, v) ∈ (runOps (emptyFutures V) ops).2.filter
      (fun d => decide (d.1 = t)) := by
    rw [List.mem_filter]
    exact ⟨hv, by simp⟩
  have hw' : (t, w) ∈ (runOps (emptyFutures V) ops).2.filter
      (fun d => decide (d.1 = t)) := by
    rw [List.mem_filter]
    exact ⟨hw, by simp⟩
  have := mem_eq_of_len_le_one hfl hv' hw'
  exact congrArg Prod.snd this

/-- Witness for C2 on a concrete single-put trace. -/
theorem named_future_single_assignment_witness :
    putsOn ("t") [FutureOp.put ("t") (1 : Nat), FutureOp.get ("t")] ≤ 1 ∧
    deliveredTo ("t")
      (runOps (emptyFutures Nat)
        [FutureOp.put ("t") (1 : Nat), FutureOp.get ("t")]).2 ≤ 1 :=
  ⟨by decide,
   (named_future_single_assignment
      [FutureOp.put ("t") (1 : Nat), FutureOp.get ("t")] ("t") (by decide)).1⟩

/-! ## Claim theorems: Spool -/

/-- C3: dispatch on a key with a suspended waiter removes the waiter and
hands it exactly the dispatched value, reporting handled; dispatch on a
key with no waiter reports unhandled, discards the value, and leaves the
state untouched, creating no waiter; a wait followed by a dispatch on
the same key is resumed with exactly the dispatched value. -/
theorem spool_dispatch_contract {K V : Type} [DecidableEq K]
    (s : SpoolState K) (k : K) (v : V) :
    (s k = true → Spool.dispatch s k v = (Spool.clear s k, true, some v)) ∧
    (s k = false → Spool.dispatch s k v = (s, false, none)) ∧
    (Spool.dispatch (Spool.wait s k) k v).2 = (true, some v) ∧
    (Spool.dispatch (Spool.wait s k) k v).1 k = false := by
  refine ⟨?_, ?_, ?_, ?_⟩
  · intro h
    simp [Spool.dispatch, h]
  · intro h
    simp [Spool.dispatch, h]
  · simp [Spool.dispatch, Spool.wait]
  · simp [Spool.dispatch, Spool.wait, Spool.clear]

/-- Witness for C3 on the empty spool and a concrete key and value. -/
theorem spool_dispatch_contract_witness :
    (fun _ => false : SpoolState String) ("k") = false ∧
    Spool.dispatch (fun _ => false : SpoolState String) ("k") (5 : Nat) =
      ((fun _ => false), false, none) :=
  ⟨rfl,
   (spool_dispatch_contract (fun _ => false) ("k") (5 : Nat)).2.1 rfl⟩

/-! ## Claim theorems: path router -/

/-- C4: compiling the template for the settings page splits it on the
placeholder, regex-escapes the literal segments, turns the placeholder
into a non-slash capture group, anchors the pattern start-to-end, and
records the placeholder names in order; matching the path with the token
value abc123 yields the mapping sending token to abc123, the first
placeholder name mapped to the first capture group. -/
theorem route_compile_and_extract :
    (Route.make ("GET") ("/settings/:token") ()).paramNames =
      [("token" : String)] ∧
    (Route.make ("GET") ("/settings/:token") ()).regexStr =
      ("^/settings/([^/]*)$") ∧
    (Route.make ("GET") ("/settings/:token") ()).pieces =
      [Piece.lit ("/settings/"), Piece.capture ("token"), Piece.lit ("")] ∧
    (Route.make ("GET") ("/settings/:token") ()).matchReq
        { method := some ("GET"), url := some ("/settings/abc123") } =
      some [(("token" : String), ("abc123" : String))] := by
  decide

/-- C5 divergence evidence: the constructor stores the method exactly as
given and instead uppercases the stored pattern field, while match
uppercases only the request method before a verbatim comparison; hence a
Route constructed with the lowercase method get matches no request at
all, not even one whose method is GET or get, whereas a Route
constructed with the uppercase method does match case-insensitively. -/
theorem route_method_case_divergence :
    (Route.make ("get") ("/x") ()).method = ("get") ∧
    (Route.make ("get") ("/x") ()).pattern = ("/X") ∧
    (Route.make ("get") ("/x") ()).matchReq
        { method := some ("GET"), url := some ("/x") } = none ∧
    (Route.make ("get") ("/x") ()).matchReq
        { method := some ("get"), url := some ("/x") } = none ∧
    (Route.make ("GET") ("/x") ()).matchReq
        { method := some ("get"), url := some ("/x") } = some [] := by
  decide

/-- C6: dispatch tries the routes strictly in list order, invoking the
handler of the first route that matches with that route's captured
parameters and no later handler; when no route matches it invokes the
not-found handler, whose default responds with status 404 and the fixed
not-found body. -/
theorem dispatch_order_and_fallback (routes : List (Route HandlerFn))
    (nf : Request → Response → Response) (req : Request) (res : Response) :
    (∀ i (hi : i < routes.length) ps,
      (∀ j (hj : j < i),
        (routes.get ⟨j, Nat.lt_trans hj hi⟩).matchReq req = none) →
      (routes.get ⟨i, hi⟩).matchReq req = some ps →
      dispatch routes nf req res = (routes.get ⟨i, hi⟩).handler req res ps) ∧
    ((∀ r ∈ routes, r.matchReq req = none) →
      dispatch routes nf req res = nf req res) ∧
    notFoundHandler req res = { statusCode := 404, body := ("not found") } := by
  induction routes with
  | nil =>
    refine ⟨?_, ?_, rfl⟩
    · intro i hi
      exact absurd hi (Nat.not_lt_zero i)
    · intro _
      rfl
  | cons r rest ih =>
    refine ⟨?_, ?_, rfl⟩
    · intro i hi ps hprev hmatch
      cases i with
      | zero =>
        simp only [List.get] at hmatch ⊢
        simp [dispatch, hmatch]
      | succ i' =>
        have h0 : r.matchReq req = none := hprev 0 (Nat.succ_pos i')
        have hi' : i' < rest.length := Nat.lt_of_succ_lt_succ hi
        have hrec := ih.1 i' hi' ps
          (fun j hj => hprev (j + 1) (Nat.succ_lt_succ hj)) hmatch
        simp only [dispatch, h0]
        exact hrec
    · intro hall
      have h0 : r.matchReq req = none := hall r (List.mem_cons_self r rest)
      simp only [dispatch, h0]
      exact ih.2.1 fun q hq => hall q (List.mem_cons_of_mem r hq)

/-- Routes for the C6 witness: a parameterized route listed before an
overlapping literal route, exercising first-match-wins. -/
def witnessRoutes : List (Route HandlerFn) :=
  [Route.make ("GET") ("/users/:id")
     (fun _ r _ => { r with body := ("first") }),
   Route.make ("GET") ("/users/admin")
     (fun _ r _ => { r with body := ("second") })]

/-- Request for the C6 witness. -/
def witnessReq : Request :=
  { method := some ("GET"), url := some ("/users/admin") }

/-- Witness for C6: the earlier parameterized route wins on the
overlapping path, and the empty route list falls back to the 404
not-found response. -/
theorem dispatch_order_and_fallback_witness :
    (witnessRoutes.get ⟨0, by decide⟩).matchReq witnessReq =
      some [(("id" : String), ("admin" : String))] ∧
    dispatch witnessRoutes notFoundHandler witnessReq initialResponse =
      (witnessRoutes.get ⟨0, by decide⟩).handler witnessReq initialResponse
        [(("id" : String), ("admin" : String))] ∧
    dispatch [] notFoundHandler witnessReq initialResponse =
      { statusCode := 404, body := ("not found") } := by
  refine ⟨by decide, ?_, ?_⟩
  · exact (dispatch_order_and_fallback witnessRoutes notFoundHandler
      witnessReq initialResponse).1 0 (by decide)
      [(("id" : String), ("admin" : String))]
      (fun j hj => absurd hj (Nat.not_lt_zero j)) (by decide)
  · have h := dispatch_order_and_fallback ([] : List (Route HandlerFn))
      notFoundHandler witnessReq initialResponse
    exact (h.2.1 fun q hq => absurd hq (List.not_mem_nil q)).trans h.2.2

/-! ## Claim theorems: settings web route -/

/-- C7: a settings request whose token the registry never issued gets
status 404 with the fixed invalid-token body, and the handler returns
with the registry untouched and no effect at all: no put, no get, no
form rendered. -/
theorem settings_unknown_token (s : IVarsState Settings) (req : SettingsReq)
    (h : IVars.has s req.token = false) :
    settingsRoute s req =
      { response := { statusCode := 404, body := ("invalid token") },
        state := s, effects := [] } := by
  simp [settingsRoute, h]

/-- Witness for C7 on an empty registry and a concrete request. -/
theorem settings_unknown_token_witness :
    IVars.has (emptyFutures Settings) ("tok") = false ∧
    settingsRoute (emptyFutures Settings)
        { method := ("GET"), token := ("tok"), form := fun _ => none,
          hasOfficeClient := false } =
      { response := { statusCode := 404, body := ("invalid token") },
        state := emptyFutures Settings, effects := [] } :=
  ⟨rfl,
   settings_unknown_token (emptyFutures Settings)
     { method := ("GET"), token := ("tok"), form := fun _ => none,
       hasOfficeClient := false } rfl⟩

/-- C10: a POST with a valid token resolves the registry slot only when
the form's service field is caldav, answering with the fixed thanks
body; any other service value leaves the registry untouched, so a
suspended consumer stays suspended, calls no put, and answers with the
fixed apology body. -/
theorem settings_post_caldav_gate (s : IVarsState Settings)
    (req : SettingsReq) (hh : IVars.has s req.token = true)
    (hm : req.method = ("POST")) :
    (req.form ("service") ≠ some ("caldav") →
      settingsRoute s req =
        { response := { statusCode := 200,
                        body := ("sorry; I did not understand the form") },
          state := s, effects := [] }) ∧
    (req.form ("service") = some ("caldav") →
      settingsRoute s req =
        { response := { statusCode := 200, body := ("got it; thanks!") },
          state := (IVars.put s req.token (caldavSettingsOf req.form)).1,
          effects := [WebEffect.putToken req.token
                        (caldavSettingsOf req.form)] }) ∧
    (req.form ("service") ≠ some ("caldav") → s req.token = Slot.awaiting →
      (settingsRoute s req).state req.token = Slot.awaiting) := by
  have hno : req.form ("service") ≠ some ("caldav") →
      settingsRoute s req =
        { response := { statusCode := 200,
                        body := ("sorry; I did not understand the form") },
          state := s, effects := [] } := by
    intro hs
    simp [settingsRoute, hh, hm, hs]
  refine ⟨hno, ?_, ?_⟩
  · intro hs
    simp [settingsRoute, hh, hm, hs]
  · intro hs hw
    rw [hno hs]
    exact hw

/-- State for the C10 witness: one token awaiting a value. -/
def awaitingTok : IVarsState Settings :=
  setSlot (emptyFutures Settings) ("tok") Slot.awaiting

/-- Request for the C10 witness: a POST whose service field is not
caldav. -/
def badFormReq : SettingsReq :=
  { method := ("POST"), token := ("tok"),
    form := fun k => if k = ("service") then some ("xml") else none,
    hasOfficeClient := false }

/-- Witness for C10: the non-caldav POST leaves the awaiting slot
untouched and produces the fixed apology. -/
theorem settings_post_caldav_gate_witness :
    IVars.has awaitingTok ("tok") = true ∧
    badFormReq.form ("service") ≠ some ("caldav") ∧
    settingsRoute awaitingTok badFormReq =
      { response := { statusCode := 200,
                      body := ("sorry; I did not understand the form") },
        state := awaitingTok, effects := [] } :=
  ⟨rfl, by decide,
   (settings_post_caldav_gate awaitingTok badFormReq rfl rfl).1 (by decide)⟩

/-! ## Claim theorems: intent dispatch -/

/-- C8: interact gives the greetings entity priority, then the bye
entity, then the thanks entity; only with none of them present does it
dispatch on the intent value into the fixed handler set, and an absent
or unmatched intent falls to the default handler. -/
theorem interact_precedence (res : WitResult) :
    (res.hasEntity ("greetings") = true →
      interact res = IntentHandler.handle_greeting) ∧
    (res.hasEntity ("greetings") = false → res.hasEntity ("bye") = true →
      interact res = IntentHandler.handle_bye) ∧
    (res.hasEntity ("greetings") = false → res.hasEntity ("bye") = false →
      res.hasEntity ("thanks") = true →
      interact res = IntentHandler.handle_thanks) ∧
    (res.hasEntity ("greetings") = false → res.hasEntity ("bye") = false →
      res.hasEntity ("thanks") = false →
      ((res.entityValue ("intent") = some ("show_calendar") →
          interact res = IntentHandler.handle_show_calendar) ∧
       (res.entityValue ("intent") = some ("schedule_meeting") →
          interact res = IntentHandler.handle_schedule_meeting) ∧
       (res.entityValue ("intent") = some ("setup_calendar") →
          interact res = IntentHandler.handle_setup_calendar) ∧
       (res.entityValue ("intent") = some ("help") →
          interact res = IntentHandler.handle_help) ∧
       (res.entityValue ("intent") = none →
          interact res = IntentHandler.handle_default) ∧
       (∀ x, res.entityValue ("intent") = some x →
          x ∉ [("show_calendar" : String), ("schedule_meeting"),
               ("setup_calendar"), ("help")] →
          interact res = IntentHandler.handle_default))) := by
  refine ⟨?_, ?_, ?_, ?_⟩
  · intro hg
    simp [interact, hg]
  · intro hg hb
    simp [interact, hg, hb]
  · intro hg hb ht
    simp [interact, hg, hb, ht]
  · intro hg hb ht
    refine ⟨?_, ?_, ?_, ?_, ?_, ?_⟩
    · intro hi
      simp [interact, hg, hb, ht, hi]
    · intro hi
      simp [interact, hg, hb, ht, hi]
    · intro hi
      simp [interact, hg, hb, ht, hi]
    · intro hi
      simp [interact, hg, hb, ht, hi]
    · intro hi
      simp [interact, hg, hb, ht, hi]
    · intro x hx hmem
      simp only [List.mem_cons, List.not_mem_nil, or_false, not_or] at hmem
      simp [interact, hg, hb, ht, hx, hmem.1, hmem.2.1, hmem.2.2.1,
        hmem.2.2.2]

/-- NLP result for the C8 witness: only the greetings entity present. -/
def greetWit : WitResult :=
  { hasEntity := fun k => decide (k = ("greetings")),
    entityValue := fun _ => none }

/-- Witness for C8: a greetings entity selects the greeting handler. -/
theorem interact_precedence_witness :
    greetWit.hasEntity ("greetings") = true ∧
    interact greetWit = IntentHandler.handle_greeting :=
  ⟨rfl, (interact_precedence greetWit).1 rfl⟩

/-! ## Claim theorems: calendar settings gathering -/

/-- C9: getCalendar gathers settings, awaiting the registry on the
minted token after sending its URL, exactly when forced or when the
user record has no configured service; when neither holds, the stored
record is returned unchanged with no effects at all; and whenever
settings are gathered, the update-and-save step follows the gathering
effects, and the resolved settings become the user's settings. -/
theorem getCalendar_regather_policy (stored : Option User) (sid : String)
    (force : Bool) (token : String) (resolved : Settings) :
    (CalEffect.registryGet token ∈
        (getCalendar stored sid force token resolved).2.1 ↔
      (force = true ∨ (getUser stored sid).1.settings.service = none)) ∧
    (¬ (force = true ∨ (getUser stored sid).1.settings.service = none) →
      stored = some (getCalendar stored sid force token resolved).1 ∧
      (getCalendar stored sid force token resolved).2.1 = []) ∧
    ((force = true ∨ (getUser stored sid).1.settings.service = none) →
      (getCalendar stored sid force token resolved).2.1 =
        (getUser stored sid).2 ++
          [CalEffect.sentSettingsURL token, CalEffect.registryGet token,
           CalEffect.updatedUser, CalEffect.savedDatabase] ∧
      (getCalendar stored sid force token resolved).1.settings = resolved) := by
  refine ⟨?_, ?_, ?_⟩
  · by_cases hc : force = true ∨ (getUser stored sid).1.settings.service = none
    · simp [getCalendar, gatherSettings, hc]
    · cases stored with
      | none => exact absurd (Or.inr rfl) hc
      | some u =>
        simp only [getUser] at hc
        simp [getCalendar, getUser, hc]
  · intro hc
    cases stored with
    | none => exact absurd (Or.inr rfl) hc
    | some u =>
      simp only [getUser] at hc
      simp [getCalendar, getUser, hc]
  · intro hc
    simp [getCalendar, gatherSettings, hc]

/-- Stored user for the C9 witness: a caldav service already
configured. -/
def configuredUser : User :=
  { slack_id := ("u1"),
    settings := { service := some ServiceKind.caldav, caldav := none,
                  officeToken := none } }

/-- Witness for C9: with a configured service and no force, no gathering
happens and nothing is touched; a forced call gathers and saves. -/
theorem getCalendar_regather_policy_witness :
    (¬ (false = true ∨
        (getUser (some configuredUser) ("u1")).1.settings.service = none)) ∧
    (getCalendar (some configuredUser) ("u1") false ("tok")
        emptySettings).2.1 = [] ∧
    (getCalendar (some configuredUser) ("u1") true ("tok")
        emptySettings).2.1 =
      [CalEffect.sentSettingsURL ("tok"), CalEffect.registryGet ("tok"),
       CalEffect.updatedUser, CalEffect.savedDatabase] :=
  ⟨by decide,
   ((getCalendar_regather_policy (some configuredUser) ("u1") false ("tok")
      emptySettings).2.1 (by decide)).2,
   ((getCalendar_regather_policy (some configuredUser) ("u1") true ("tok")
      emptySettings).2.2 (Or.inl rfl)).1⟩

end OpalBot
